import Mathlib

/-!
Verification of the `AIPartnerUpFlowClient` API client
(`src/lib/api/apflow.ts`) of the apflow-webapp repository.

The client is shallowly embedded: JavaScript runtime values that flow
through the client dynamically are modelled by the inductive type `Json`
(JSON.parse output and JS object literals), JS truthiness by `jsTruthy`,
property access by `jget`, and `localStorage` by a partial map
`String → Option String`.  Stateful code (the `requestId` counter) is
modelled by explicit state passing; the SSE streaming loop of
`executeTask`/`processStream` is modelled as a fold over the list of
text-decoded chunks delivered by the reader.
-/

/-- JSON values / dynamically typed JS values handled by the client.
Numbers are modelled as rationals (JSON number literals are exact
decimal strings; none of the verified properties depends on IEEE-754
rounding). -/
inductive Json where
  | null : Json
  | bool (b : Bool) : Json
  | num (q : Rat) : Json
  | str (s : String) : Json
  | arr (xs : List Json) : Json
  | obj (fields : List (String × Json)) : Json

/-- JavaScript truthiness of a value (`if (v)`).  `NaN` cannot arise from
JSON.parse, so a number is falsy exactly when it is zero. -/
def jsTruthy : Json → Bool
  | .null => false
  | .bool b => b
  | .num q => q != 0
  | .str s => s != ""
  | .arr _ => true
  | .obj _ => true

/-- Truthiness of a possibly-undefined value (`undefined` is falsy). -/
def jsTruthyO : Option Json → Bool
  | none => false
  | some j => jsTruthy j

/-- JS property access `v[k]`: on an object the last binding of the key
wins (as for duplicate keys in JSON.parse and object literals); on any
other value the access yields `undefined` (`none`).  The special
properties of strings and arrays (`length` etc.) are never read by the
client code modelled here. -/
def jget : Json → String → Option Json
  | .obj fs, k => fs.foldl (fun acc p => if p.1 = k then some p.2 else acc) none
  | _, _ => none

/-- Optional-chaining property access `v?.k` (`undefined`/`null` on the
left yields `undefined`; `jget` already yields `undefined` on `null`). -/
def jgetO : Option Json → String → Option Json
  | none, _ => none
  | some j, k => jget j k

/-- `Object.values(v)`: field values of an object in insertion order,
the elements of an array, the one-character strings of a string, and
`[]` for other primitives (`Object.values` boxes primitives; only
objects, arrays and strings have own enumerable properties). -/
def jvaluesO : Option Json → List Json
  | some (.obj fs) => fs.map (fun p => p.2)
  | some (.arr xs) => xs
  | some (.str s) => s.data.map (fun c => Json.str (String.mk [c]))
  | _ => []

/-- Strict equality `v === "lit"` between a possibly-undefined value and
a string literal. -/
def isStrEq : Option Json → String → Bool
  | some (.str s), t => s = t
  | _, _ => false

/-- The JS `a || b` idiom on a possibly-undefined first operand:
the first operand if truthy, otherwise the fallback. -/
def jsOrO (a : Option Json) (b : Json) : Json :=
  match a with
  | some v => if jsTruthy v then v else b
  | none => b

/-! ### JSON.parse

A model of the JSON grammar accepted by `JSON.parse`, used by
`processStream` on the payload of each `data: ` line.  The parser is
fuel-indexed for termination; `parseJson` supplies ample fuel. -/

/-- Whitespace accepted between JSON tokens. -/
def jsonWs (c : Char) : Bool :=
  c = ' ' || c = '\t' || c = '\n' || c = '\r'

/-- Drop leading JSON whitespace. -/
def skipWs (cs : List Char) : List Char :=
  cs.dropWhile jsonWs

/-- Value of a hexadecimal digit. -/
def hexVal (c : Char) : Option Nat :=
  if '0' ≤ c ∧ c ≤ '9' then some (c.toNat - 48)
  else if 'a' ≤ c ∧ c ≤ 'f' then some (c.toNat - 87)
  else if 'A' ≤ c ∧ c ≤ 'F' then some (c.toNat - 55)
  else none

/-- Body of a JSON string after the opening quote: the decoded
characters and the input after the closing quote. -/
def parseStringAux (fuel : Nat) (cs : List Char) : Option (List Char × List Char) :=
  match fuel, cs with
  | 0, _ => none
  | _, [] => none
  | fuel + 1, c :: rest =>
    if c = '"' then some ([], rest)
    else if c = '\\' then
      match rest with
      | [] => none
      | e :: rest' =>
        let cont := fun (ch : Char) (rs : List Char) =>
          (parseStringAux fuel rs).map (fun p => (ch :: p.1, p.2))
        if e = '"' then cont '"' rest'
        else if e = '\\' then cont '\\' rest'
        else if e = '/' then cont '/' rest'
        else if e = 'b' then cont '\x08' rest'
        else if e = 'f' then cont '\x0c' rest'
        else if e = 'n' then cont '\n' rest'
        else if e = 'r' then cont '\r' rest'
        else if e = 't' then cont '\t' rest'
        else if e = 'u' then
          match rest' with
          | h1 :: h2 :: h3 :: h4 :: rest'' =>
            match hexVal h1, hexVal h2, hexVal h3, hexVal h4 with
            | some a, some b, some c2, some d =>
              cont (Char.ofNat (((a * 16 + b) * 16 + c2) * 16 + d)) rest''
            | _, _, _, _ => none
          | _ => none
        else none
    else if c.toNat < 32 then none
    else (parseStringAux fuel rest).map (fun p => (c :: p.1, p.2))

/-- Leading decimal digits of the input and the rest. -/
def takeDigits (cs : List Char) : List Char × List Char :=
  (cs.takeWhile Char.isDigit, cs.dropWhile Char.isDigit)

/-- Natural number denoted by a digit string. -/
def digitsToNat (ds : List Char) : Nat :=
  ds.foldl (fun n c => n * 10 + (c.toNat - 48)) 0

/-- A JSON number literal (`-? (0 | [1-9][0-9]*) frac? exp?`) and the
rest of the input.  The exact rational value is computed. -/
def parseNumber (cs : List Char) : Option (Rat × List Char) :=
  let signSplit : Bool × List Char :=
    match cs with
    | '-' :: r => (true, r)
    | _ => (false, cs)
  let neg := signSplit.1
  let cs1 := signSplit.2
  match cs1 with
  | [] => none
  | c :: _ =>
    if ¬ c.isDigit then none
    else
      let (ids, cs2) := takeDigits cs1
      if c = '0' ∧ ids.length > 1 then none
      else
        let ipart : Rat := (digitsToNat ids : Nat)
        let fracRes : Option (Rat × List Char) := match cs2 with
          | '.' :: r =>
            let (fds, cs3) := takeDigits r
            if fds = [] then none
            else some (ipart + (digitsToNat fds : Rat) / ((10 : Rat) ^ fds.length), cs3)
          | _ => some (ipart, cs2)
        match fracRes with
        | none => none
        | some (mant, cs4) =>
          let expRes : Option (Rat × List Char) := match cs4 with
            | 'e' :: r | 'E' :: r =>
              let (epos, r2) := match r with
                | '+' :: rr => (true, rr)
                | '-' :: rr => (false, rr)
                | _ => (true, r)
              let (eds, cs5) := takeDigits r2
              if eds = [] then none
              else if epos then some (mant * (10 : Rat) ^ digitsToNat eds, cs5)
              else some (mant / (10 : Rat) ^ digitsToNat eds, cs5)
            | _ => some (mant, cs4)
          match expRes with
          | none => none
          | some (v, cs6) => some (if neg then -v else v, cs6)

mutual

/-- A JSON value at the head of the input (after optional whitespace)
and the remaining input. -/
def parseV (fuel : Nat) (cs0 : List Char) : Option (Json × List Char) :=
  match fuel with
  | 0 => none
  | fuel + 1 =>
    match skipWs cs0 with
    | [] => none
    | c :: rest =>
      if c = '"' then
        (parseStringAux (rest.length + 1) rest).map
          (fun p => (Json.str (String.mk p.1), p.2))
      else if c = 't' then
        match rest with
        | 'r' :: 'u' :: 'e' :: r => some (Json.bool true, r)
        | _ => none
      else if c = 'f' then
        match rest with
        | 'a' :: 'l' :: 's' :: 'e' :: r => some (Json.bool false, r)
        | _ => none
      else if c = 'n' then
        match rest with
        | 'u' :: 'l' :: 'l' :: r => some (Json.null, r)
        | _ => none
      else if c = '\x7b' then
        match skipWs rest with
        | '\x7d' :: r => some (Json.obj [], r)
        | r => parseMembers fuel r []
      else if c = '[' then
        match skipWs rest with
        | ']' :: r => some (Json.arr [], r)
        | r => parseItems fuel r []
      else
        (parseNumber (c :: rest)).map (fun p => (Json.num p.1, p.2))

/-- The members of a JSON object after the opening brace (first member
onward), accumulating parsed fields in order. -/
def parseMembers (fuel : Nat) (cs : List Char) (acc : List (String × Json)) :
    Option (Json × List Char) :=
  match fuel with
  | 0 => none
  | fuel + 1 =>
    match skipWs cs with
    | '"' :: r =>
      match parseStringAux (r.length + 1) r with
      | none => none
      | some (key, r2) =>
        match skipWs r2 with
        | ':' :: r3 =>
          match parseV fuel r3 with
          | none => none
          | some (v, r4) =>
            let acc' := acc ++ [(String.mk key, v)]
            match skipWs r4 with
            | ',' :: r5 => parseMembers fuel r5 acc'
            | '\x7d' :: r5 => some (Json.obj acc', r5)
            | _ => none
        | _ => none
    | _ => none

/-- The items of a JSON array after the opening bracket (first item
onward), accumulating parsed elements in order. -/
def parseItems (fuel : Nat) (cs : List Char) (acc : List Json) :
    Option (Json × List Char) :=
  match fuel with
  | 0 => none
  | fuel + 1 =>
    match parseV fuel cs with
    | none => none
    | some (v, r) =>
      let acc' := acc ++ [v]
      match skipWs r with
      | ',' :: r2 => parseItems fuel r2 acc'
      | ']' :: r2 => some (Json.arr acc', r2)
      | _ => none

end

/-- `JSON.parse(s)` on the character list `s`: the parsed value when the
whole input is one JSON value, `none` (an exception in JS) otherwise. -/
def parseJson (cs : List Char) : Option Json :=
  match parseV (2 * cs.length + 2) cs with
  | some (j, rest) => if skipWs rest = [] then some j else none
  | none => none

/-! ### Request codec and client state

`AIPartnerUpFlowClient` holds one piece of mutable state, the
correlation-id counter `private requestId = 0`.  Every JSON-RPC
envelope is built with `id: ++this.requestId` (pre-increment: the
counter is bumped and the new value used), both in `rpcRequest`
(line 292) and in `executeTask` (line 587).  The increment is a plain
synchronous expression evaluated before any `await`, which the explicit
state passing below models. -/

/-- The mutable state of a client instance. -/
structure ClientState where
  requestId : Nat

/-- A JSON-RPC 2.0 request envelope (`jsonrpc` is the constant
`"2.0"`). -/
structure JsonRpcRequest where
  method : String
  params : Json
  id : Nat

/-- The expression `++this.requestId`: the new counter value, and the
state after the increment. -/
def bumpId (s : ClientState) : Nat × ClientState :=
  (s.requestId + 1, ⟨s.requestId + 1⟩)

/-- The envelope-building step shared by `rpcRequest` and
`executeTask`: assign the next correlation id and build the request. -/
def rpcBuild (s : ClientState) (method : String) (params : Json) :
    JsonRpcRequest × ClientState :=
  let (i, s') := bumpId s
  ({ method := method, params := params, id := i }, s')

/-- The correlation ids assigned by `n` successive envelope-building
calls (any mix of `rpcRequest` and `executeTask`) on a client in state
`s`, in order. -/
def assignIds (s : ClientState) : Nat → List Nat
  | 0 => []
  | n + 1 =>
    let (i, s') := bumpId s
    i :: assignIds s' n

/-- JS whitespace removed by `String.prototype.trim`. -/
def jsSpace (c : Char) : Bool :=
  c = ' ' || c = '\t' || c = '\n' || c = '\r' || c = '\x0b' || c = '\x0c' || c = '\xa0'

/-- `description.trim()`. -/
def jsTrim (cs : List Char) : List Char :=
  ((cs.dropWhile jsSpace).reverse.dropWhile jsSpace).reverse

/-- `generateTask` (lines 395-400): guard `!description ||
description.trim() === ''` throws `'Description is required'` before
any envelope is built; otherwise a `tasks.generate` request with the
trimmed requirement is encoded. -/
def generateTask (s : ClientState) (description : String) :
    Except String JsonRpcRequest × ClientState :=
  if description = "" then (.error "Description is required", s)
  else if jsTrim description.data = [] then (.error "Description is required", s)
  else
    let (req, s') := rpcBuild s "tasks.generate"
      (.obj [("requirement", .str (String.mk (jsTrim description.data)))])
    (.ok req, s')

/-- `getTask` (lines 413-418): guard `!taskId` throws
`'Task ID is required'` before any envelope is built. -/
def getTask (s : ClientState) (taskId : String) :
    Except String JsonRpcRequest × ClientState :=
  if taskId = "" then (.error "Task ID is required", s)
  else
    let (req, s') := rpcBuild s "tasks.get" (.obj [("task_id", .str taskId)])
    (.ok req, s')

/-- `getTaskChildren` (lines 849-854): guard `!parentId` throws
`'Parent task ID is required'` before any envelope is built. -/
def getTaskChildren (s : ClientState) (parentId : String) :
    Except String JsonRpcRequest × ClientState :=
  if parentId = "" then (.error "Parent task ID is required", s)
  else
    let (req, s') := rpcBuild s "tasks.children" (.obj [("parent_id", .str parentId)])
    (.ok req, s')

/-- The error thrown by `rpcRequest` on a JSON-RPC error response:
`message` is `String(error.data || error.message || 'RPC Error')` and
`code` is copied from the server's `error.code` field. -/
structure RpcThrown where
  message : String
  code : Option Json

/-- `String(v)`: JS string conversion.  The `num` branch renders the
exact rational (exact for integers; JS float formatting of non-integral
values is out of scope), and the `arr` branch (recursive comma join in
JS) is approximated by its empty-array value — no property proved below
stringifies a number or a non-empty array. -/
def jsToString : Json → String
  | .null => "null"
  | .bool b => if b then "true" else "false"
  | .str s => s
  | .num q => if q.den = 1 then toString q.num else toString q
  | .arr _ => ""
  | .obj _ => "[object Object]"

/-- Decoding half of `rpcRequest` (lines 296-309): if
`response.data.error` is truthy, throw an error whose message is
`String(error.data || error.message || 'RPC Error')` and whose `code`
field is the server's `error.code`; otherwise return
`response.data.result` unchanged (`undefined` when absent). -/
def rpcDecode (body : Json) : Except RpcThrown (Option Json) :=
  if jsTruthyO (jget body "error") then
    let e := (jget body "error").getD .null
    let msg := jsOrO (jget e "data") (jsOrO (jget e "message") (.str "RPC Error"))
    .error { message := jsToString msg, code := jget e "code" }
  else
    .ok (jget body "result")

/-! ### Provider detection (lines 497-548) -/

/-- `String.prototype.toLowerCase` on the ASCII range (model names are
ASCII). -/
def jsToLower (c : Char) : Char :=
  if 'A' ≤ c ∧ c ≤ 'Z' then Char.ofNat (c.toNat + 32) else c

/-- Lowercased character list of a string. -/
def lowerChars (s : String) : List Char :=
  s.data.map jsToLower

/-- `hay.includes(needle)` for strings. -/
def strContains (hay needle : List Char) : Bool :=
  hay.tails.any (fun t => needle.isPrefixOf t)

/-- The provider-tag allow-list checked against an explicit
`provider/model` prefix (line 529). -/
def providerAllowList : List (List Char) :=
  ["openai", "anthropic", "google", "gemini", "azure", "cohere", "mistral",
   "groq", "together", "ai21", "replicate", "ollama", "deepinfra"].map String.data

/-- The ordered substring-pattern table (lines 535-545), first match
wins.  `gpt-` is checked before `gpt`, but the disjunction collapses to
the `gpt` test; likewise the paired patterns share one entry. -/
def patternTable : List (List Char × String) :=
  [(String.data "gpt", "openai"),
   (String.data "claude", "anthropic"),
   (String.data "gemini", "google"),
   (String.data "palm", "google"),
   (String.data "command", "cohere"),
   (String.data "mistral", "mistral"),
   (String.data "mixtral", "mistral"),
   (String.data "llama", "groq"),
   (String.data "j2-", "ai21"),
   (String.data "togethercomputer", "together"),
   (String.data "replicate", "replicate"),
   (String.data "ollama", "ollama"),
   (String.data "deepinfra", "deepinfra")]

/-- First pattern of the table contained in the lowercased model
name. -/
def patternLookup (m : List Char) : List (List Char × String) → Option String
  | [] => none
  | (pat, prov) :: rest =>
    if strContains m pat then some prov else patternLookup m rest

/-- `detectProviderFromModel` (lines 521-548): empty model name yields
`undefined`; an explicit `provider/...` prefix on the allow-list wins;
otherwise the ordered substring table decides; no match yields
`undefined`. -/
def detectProviderFromModel (modelName : String) : Option String :=
  if modelName = "" then none
  else
    let m := lowerChars modelName
    if strContains m (String.data "/") then
      let provider := m.takeWhile (fun c => c ≠ '/')
      if provider ∈ providerAllowList then some (String.mk provider)
      else patternLookup m patternTable
    else patternLookup m patternTable

/-- The `for (const agentConfig of Object.values(works.agents))` loop
(lines 501-507): the `llm` value of the first agent whose `llm` is of
string type.  The loop returns `detectProviderFromModel(llm)` for that
very value — an empty string is not skipped. -/
def firstAgentLlm : List Json → Option String
  | [] => none
  | a :: rest =>
    match jget a "llm" with
    | some (.str s) => some s
    | _ => firstAgentLlm rest

/-- The crew-level fallback (lines 511-513): `works?.llm &&
typeof works.llm === 'string'` — a truthy (hence non-empty) string. -/
def crewLlmCheck (works : Option Json) : Option String :=
  match works with
  | none => none
  | some w =>
    match jget w "llm" with
    | some (.str s) => if s ≠ "" then detectProviderFromModel s else none
    | _ => none

/-- `detectProviderFromTask` (lines 497-516): look in
`task.params?.works`; when `works?.agents` is truthy, the first agent
with a string-typed `llm` decides via `detectProviderFromModel` (no
fall-through to later candidates, even for the empty string); only
when no agent has a string `llm` is the crew-level `works.llm`
consulted. -/
def detectProviderFromTask (task : Json) : Option String :=
  let works := jgetO (jget task "params") "works"
  let agentLlm :=
    match works with
    | none => none
    | some w =>
      if jsTruthyO (jget w "agents") then firstAgentLlm (jvaluesO (jget w "agents"))
      else none
  match agentLlm with
  | some llm => detectProviderFromModel llm
  | none => crewLlmCheck works

/-! ### Credential headers of `executeTask` (lines 590-628) -/

/-- Truthiness of a `string | null | undefined` JS value
(`localStorage.getItem` results and the detected provider). -/
def strTruthy : Option String → Bool
  | some s => s != ""
  | none => false

/-- The `X-LLM-API-KEY` value of `executeTask` (lines 595-615): the
provider-specific `llm_api_key_<provider>` entry if the provider is
truthy and the entry truthy, else the generic `llm_api_key` entry if
truthy, else no header; formatted `provider:key` when the provider is
truthy, bare `key` otherwise.  `store` models `localStorage`. -/
def llmHeaderValue (store : String → Option String) (provider : Option String) :
    Option String :=
  let k1 : Option String :=
    if strTruthy provider then store ("llm_api_key_" ++ provider.getD "") else none
  let llmKey : Option String :=
    if strTruthy k1 then k1 else store "llm_api_key"
  if strTruthy llmKey then
    if strTruthy provider then some (provider.getD "" ++ ":" ++ llmKey.getD "")
    else llmKey
  else none

/-- The headers of the streaming `executeTask` request (lines 590-637):
`Content-Type`, then the optional `X-LLM-API-KEY`, merged with the
optional `Authorization: Bearer <auth_token>` header. -/
def executeTaskHeaders (store : String → Option String) (provider : Option String) :
    List (String × String) :=
  let hs := [("Content-Type", "application/json")]
  let hs := match llmHeaderValue store provider with
    | some v => hs ++ [("X-LLM-API-KEY", v)]
    | none => hs
  match store "auth_token" with
  | some t => if t != "" then hs ++ [("Authorization", "Bearer " ++ t)] else hs
  | none => hs

/-- Lookup in a header map (later entries shadow earlier ones, as JS
object spread does). -/
def hget (hs : List (String × String)) (k : String) : Option String :=
  hs.foldl (fun acc p => if p.1 = k then some p.2 else acc) none

/-! ### `executeTask` (lines 559-749) -/

/-- The provider used by `executeTask` (lines 565-573): the preliminary
`tasks.get` result fed to `detectProviderFromTask`; any error thrown by
the preliminary call is caught (logged at debug level) and the call
continues with no provider. -/
def executeTaskProvider (getTaskResult : Except String Json) : Option String :=
  match getTaskResult with
  | .ok task => detectProviderFromTask task
  | .error _ => none

/-- The `tasks.execute` envelope built by `executeTask`
(lines 576-588), a total function of the preliminary `tasks.get`
outcome: the catch around the preliminary call means the envelope is
built and sent in every case. -/
def executeTaskRequest (s : ClientState) (taskId : String) (useStreaming : Bool)
    (useDemo : Option Bool) : JsonRpcRequest × ClientState :=
  let params :=
    Json.obj ([("task_id", Json.str taskId),
               ("use_streaming", Json.bool useStreaming)] ++
      (match useDemo with
       | some d => [("use_demo", Json.bool d)]
       | none => []))
  rpcBuild s "tasks.execute" params

/-! ### The SSE stream loop `processStream` (lines 659-706)

The reader loop is modelled as a fold over the list of text-decoded
chunks (`decoder.decode(value, {stream: true})` re-assembles split
UTF-8 sequences, so chunk boundaries live at character level).  The
`return` inside the loop is modelled by the `retVal` field: once it is
set, nothing further is processed.  The captured `initialResponse`,
the `onEvent` calls and the `return` value are grouped in `SseState`,
separate from the partial-line `buffer` which the line loop never
touches. -/

/-- The synthesized placeholder acknowledgement
(lines 683-689 / 699-705 / 720-726). -/
def synthResponse (taskId : String) : Json :=
  .obj [("success", .bool true),
        ("root_task_id", .str taskId),
        ("task_id", .str taskId),
        ("status", .str "started"),
        ("message", .str "Task execution started")]

/-- The part of `processStream`'s local state the line loop works on:
the captured `initialResponse`, the `onEvent` calls made so far (in
order), and the value of an early `return` if one has happened. -/
structure SseState where
  initial : Option Json
  events : List Json
  retVal : Option Json

/-- The full local state of `processStream`: line-loop state plus the
partial-line buffer. -/
structure StreamState where
  buffer : List Char
  st : SseState

/-- The state at the top of `processStream`: empty buffer, no initial
response, no events, still running. -/
def initStream : StreamState :=
  { buffer := [], st := { initial := none, events := [], retVal := none } }

/-- `buffer.split('\n')` followed by `buffer = lines.pop() || ''`:
the complete lines, and the trailing partial line kept as the new
buffer. -/
def splitLines : List Char → List (List Char) × List Char
  | [] => ([], [])
  | c :: cs =>
    if c = '\n' then (([] : List Char) :: (splitLines cs).1, (splitLines cs).2)
    else
      match splitLines cs with
      | ([], r) => ([], c :: r)
      | (l :: ls, r) => ((c :: l) :: ls, r)

/-- The body of the `for (const line of lines)` loop (lines 668-696):
a `data: `-prefixed line is stripped and JSON-parsed; a parse failure
is logged and skipped; a JSON-RPC-shaped object (jsonrpc `"2.0"` with
truthy `result`) replaces the captured `initialResponse`; an object
with a truthy `type` is forwarded to `onEvent`, and if its `final` is
truthy or its `type` is `"stream_end"` the function returns
`initialResponse || synthesized` at once. -/
def processLine (taskId : String) (s : SseState) (line : List Char) : SseState :=
  if (String.data "data: ").isPrefixOf line then
    let data := line.drop 6
    match parseJson data with
    | none => s
    | some parsed =>
      if isStrEq (jget parsed "jsonrpc") "2.0" && jsTruthyO (jget parsed "result") then
        { s with initial := jget parsed "result" }
      else if jsTruthyO (jget parsed "type") then
        let s2 := { s with events := s.events ++ [parsed] }
        if jsTruthyO (jget parsed "final") || isStrEq (jget parsed "type") "stream_end" then
          { s2 with retVal := some (jsOrO s2.initial (synthResponse taskId)) }
        else s2
      else s
  else s

/-- The line loop with the early `return`: lines after a `return` are
never reached. -/
def runLines (taskId : String) (s : SseState) : List (List Char) → SseState
  | [] => s
  | l :: ls =>
    if s.retVal.isSome then s
    else runLines taskId (processLine taskId s l) ls

/-- One iteration of the `while (true)` reader loop (lines 660-697) on
a delivered chunk: append to the buffer, split off the complete lines,
keep the partial tail as the new buffer, run the line loop.  After a
`return` the function is gone and later chunks are never read. -/
def processChunk (taskId : String) (s : StreamState) (chunk : List Char) :
    StreamState :=
  if s.st.retVal.isSome then s
  else
    let p := splitLines (s.buffer ++ chunk)
    { buffer := p.2, st := runLines taskId s.st p.1 }

/-- The whole `processStream` run over the chunk sequence delivered by
the reader. -/
def processStream (taskId : String) (chunks : List (List Char)) : StreamState :=
  chunks.foldl (processChunk taskId) initStream

/-- The `onEvent` calls of a `processStream` run, in order. -/
def streamEvents (taskId : String) (chunks : List (List Char)) : List Json :=
  (processStream taskId chunks).st.events

/-- The value the `processStream` promise resolves with: the early
`return` value if the final marker was seen, otherwise the
end-of-stream `return initialResponse || synthesized` (lines 699-705). -/
def streamResolution (taskId : String) (chunks : List (List Char)) : Json :=
  let s := processStream taskId chunks
  s.st.retVal.getD (jsOrO s.st.initial (synthResponse taskId))

/-- At `executeTask`'s `return initialResponse || {...}` (line 720) the
background `processStream()` call has suspended at its first
`await reader.read()` without having run the loop body, so
`initialResponse` still holds its initializer `null`. -/
def initialResponseAtReturn : Option Json := none

/-- The value the promise returned by `executeTask` resolves with in
the SSE streaming branch (line 720): `initialResponse || synthesized`
evaluated synchronously before any chunk is processed.  The chunk
sequence the stream later delivers is irrelevant to it. -/
def executeTaskStreamingAck (taskId : String) (_chunks : List (List Char)) : Json :=
  jsOrO initialResponseAtReturn (synthResponse taskId)

/-! ### Correlation-id lemmas -/

/-- `assignIds` from counter value `k` is the interval
`[k+1, …, k+n]`. -/
theorem assignIds_eq_range' (k n : Nat) : assignIds ⟨k⟩ n = List.range' (k + 1) n := by
  induction n generalizing k with
  | zero => rfl
  | succ n ih => simpa [assignIds, bumpId, List.range'] using ih (k + 1)

/-- `range'` with step 1 is pairwise strictly increasing. -/
theorem pairwise_lt_range'_one (s n : Nat) :
    (List.range' s n).Pairwise (fun a b => a < b) := by
  induction n generalizing s with
  | zero => simp
  | succ n ih =>
    rw [List.range']
    refine List.Pairwise.cons (fun b hb => ?_) (ih (s + 1))
    have := (List.mem_range'_1).mp hb
    omega

/-- C3: on a single client instance, every envelope build (`rpcRequest`
and `executeTask` both run `id: ++this.requestId` synchronously before
any `await`, which the state passing in `bumpId`/`assignIds` models),
so the ids of any `n` request-building calls are exactly `1, 2, …, n`:
strictly increasing, no repeats, starting at 1, stepping by one. -/
theorem correlation_ids_strictly_increasing (n : Nat) :
    assignIds ⟨0⟩ n = List.range' 1 n ∧
    (assignIds ⟨0⟩ n).Pairwise (fun a b => a < b) ∧
    (assignIds ⟨0⟩ n).Nodup := by
  have h := assignIds_eq_range' 0 n
  refine ⟨h, ?_, ?_⟩
  · rw [h]; exact pairwise_lt_range'_one 1 n
  · rw [h]
    exact (pairwise_lt_range'_one 1 n).imp (fun hlt => Nat.ne_of_lt hlt)

/-! ### Input-validation guards -/

/-- A string of JS whitespace trims to the empty string. -/
theorem jsTrim_of_all_space (cs : List Char) (h : cs.all jsSpace = true) :
    jsTrim cs = [] := by
  have h1 : cs.dropWhile jsSpace = [] :=
    List.dropWhile_eq_nil_iff.mpr (fun x hx => List.all_eq_true.mp h x hx)
  simp [jsTrim, h1]

/-- C10: the guards of `generateTask`, `getTask` and `getTaskChildren`
fire before any envelope is built: an empty or all-whitespace
description (resp. an empty id) yields the thrown error, no request,
and an unchanged correlation counter. -/
theorem input_guards_atomic (s : ClientState) (d : String)
    (h : d.data.all jsSpace = true) :
    generateTask s d = (.error "Description is required", s) ∧
    getTask s "" = (.error "Task ID is required", s) ∧
    getTaskChildren s "" = (.error "Parent task ID is required", s) := by
  refine ⟨?_, by simp [getTask], by simp [getTaskChildren]⟩
  by_cases hd : d = ""
  · simp [generateTask, hd]
  · simp [generateTask, hd, jsTrim_of_all_space _ h]

/-- Witness for C10 at the whitespace-only description `"  "` and the
zeroed counter. -/
theorem input_guards_atomic_witness :
    ((("  " : String).data.all jsSpace = true) ∧
      generateTask ⟨0⟩ "  " = (.error "Description is required", ⟨0⟩)) :=
  ⟨by decide, (input_guards_atomic ⟨0⟩ "  " (by decide)).1⟩

/-! ### Provider detection: the spec's example triples -/

/-- The task `{params:{works:{agents:{a:{llm:"openai/gpt-4"}}}}}`. -/
def exTaskOpenai : Json :=
  .obj [("params", .obj [("works", .obj
    [("agents", .obj [("a", .obj [("llm", .str "openai/gpt-4")])])])])]

/-- The task `{params:{works:{agents:{a:{llm:"claude-3-opus"}}}}}`. -/
def exTaskClaude : Json :=
  .obj [("params", .obj [("works", .obj
    [("agents", .obj [("a", .obj [("llm", .str "claude-3-opus")])])])])]

/-- C6: the three example triples of the spec hold of
`detectProviderFromTask`: an `openai/gpt-4` agent llm is classified
`openai` through the prefix allow-list, a `claude-3-opus` agent llm is
classified `anthropic` through the substring table, and the empty task
yields `undefined`.  (`detectProviderFromTask` is a plain total Lean
function of the task value, so purity, determinism and totality are
inherent in the embedding.) -/
theorem detect_provider_examples :
    detectProviderFromTask exTaskOpenai = some "openai" ∧
    detectProviderFromTask exTaskClaude = some "anthropic" ∧
    detectProviderFromTask (.obj []) = none :=
  ⟨rfl, rfl, rfl⟩

/-! ### `executeTask` swallows the preliminary `tasks.get` failure -/

/-- C9: when the preliminary `tasks.get` of `executeTask` throws, the
catch block swallows the error: the provider is simply `undefined` and
the `tasks.execute` envelope is still built (`executeTaskRequest` is a
total function — there is no error path — and it assigns the next
correlation id). -/
theorem executeTask_swallows_getTask_error (s : ClientState) (tid : String)
    (b : Bool) (d : Option Bool) (e : String) :
    executeTaskProvider (.error e) = none ∧
    (executeTaskRequest s tid b d).1.method = "tasks.execute" ∧
    (executeTaskRequest s tid b d).1.id = s.requestId + 1 :=
  ⟨rfl, rfl, rfl⟩

/-! ### JSON-RPC error decoding (C4) -/

/-- A response whose error carries a present-but-empty `data` field. -/
def respDataEmpty : Json :=
  .obj [("jsonrpc", .str "2.0"),
        ("error", .obj [("code", .num (-32000)), ("message", .str "x"),
                        ("data", .str "")]),
        ("id", .num 1)]

/-- The spec's example response:
`error:{code:-32000, message:"x", data:"y"}`. -/
def respDataY : Json :=
  .obj [("jsonrpc", .str "2.0"),
        ("error", .obj [("code", .num (-32000)), ("message", .str "x"),
                        ("data", .str "y")]),
        ("id", .num 1)]

/-- C4 counterexample: the claim says the thrown message is the
error's `data` field whenever it is present, but the code selects it
with `error.data || error.message`, a truthiness test — on a response
whose `data` is the present-but-empty string the thrown message is the
summary `"x"`, not the claimed `""`. -/
theorem rpcDecode_present_empty_data_ignored :
    rpcDecode respDataEmpty =
      .error { message := "x", code := some (.num (-32000)) } ∧
    rpcDecode respDataEmpty ≠
      .error { message := "", code := some (.num (-32000)) } := by
  refine ⟨rfl, fun h => ?_⟩
  rw [show rpcDecode respDataEmpty =
      .error { message := "x", code := some (.num (-32000)) } from rfl] at h
  simp at h

/-- C4 amended: decode inspects `error` first; when `error` is truthy
it throws with the server's `code` and with message
`String(error.data || error.message || 'RPC Error')` — the `data`
detail is preferred over the summary only when truthy; with no (or a
falsy) `error`, the `result` value is returned unchanged.  The spec's
example `{code:-32000, message:"x", data:"y"}` throws `"y"` with code
`-32000`. -/
theorem rpcDecode_error_first_truthy_detail :
    (rpcDecode respDataY =
       .error { message := "y", code := some (.num (-32000)) }) ∧
    (∀ body e d, jget body "error" = some e → jsTruthy e = true →
       jget e "data" = some d → jsTruthy d = true →
       rpcDecode body = .error { message := jsToString d, code := jget e "code" }) ∧
    (∀ body e m, jget body "error" = some e → jsTruthy e = true →
       jsTruthyO (jget e "data") = false →
       jget e "message" = some m → jsTruthy m = true →
       rpcDecode body = .error { message := jsToString m, code := jget e "code" }) ∧
    (∀ body e, jget body "error" = some e → jsTruthy e = true →
       jsTruthyO (jget e "data") = false → jsTruthyO (jget e "message") = false →
       rpcDecode body = .error { message := "RPC Error", code := jget e "code" }) ∧
    (∀ body, jsTruthyO (jget body "error") = false →
       rpcDecode body = .ok (jget body "result")) := by
  refine ⟨rfl, ?_, ?_, ?_, ?_⟩
  · intro body e d h1 h2 h3 h4
    simp [rpcDecode, h1, h2, h3, h4, jsTruthyO, jsOrO]
  · intro body e m h1 h2 h3 h4 h5
    have hd : jsTruthy ((jget e "data").getD .null) = false ∨ jget e "data" = none := by
      cases hx : jget e "data" with
      | none => exact Or.inr rfl
      | some v => rw [hx] at h3; simp [jsTruthyO] at h3; exact Or.inl (by simpa using h3)
    cases hx : jget e "data" with
    | none => simp [rpcDecode, h1, h2, h4, h5, hx, jsTruthyO, jsOrO]
    | some v =>
      rw [hx] at h3
      simp [jsTruthyO] at h3
      simp [rpcDecode, h1, h2, h4, h5, hx, h3, jsTruthyO, jsOrO]
  · intro body e h1 h2 h3 h4
    cases hx : jget e "data" with
    | none =>
      cases hy : jget e "message" with
      | none => simp [rpcDecode, h1, h2, hx, hy, jsTruthyO, jsOrO, jsToString]
      | some w =>
        rw [hy] at h4; simp [jsTruthyO] at h4
        simp [rpcDecode, h1, h2, hx, hy, h4, jsTruthyO, jsOrO, jsToString]
    | some v =>
      rw [hx] at h3; simp [jsTruthyO] at h3
      cases hy : jget e "message" with
      | none => simp [rpcDecode, h1, h2, hx, hy, h3, jsTruthyO, jsOrO, jsToString]
      | some w =>
        rw [hy] at h4; simp [jsTruthyO] at h4
        simp [rpcDecode, h1, h2, hx, hy, h3, h4, jsTruthyO, jsOrO, jsToString]
  · intro body h
    simp [rpcDecode, h]

/-- Witness for C4 at the spec's example response. -/
theorem rpcDecode_error_first_truthy_detail_witness :
    (jget respDataY "error" =
       some (.obj [("code", .num (-32000)), ("message", .str "x"),
                   ("data", .str "y")])) ∧
    rpcDecode respDataY =
      .error { message := jsToString (.str "y"),
               code := jget (.obj [("code", .num (-32000)), ("message", .str "x"),
                                   ("data", .str "y")]) "code" } :=
  ⟨rfl, rpcDecode_error_first_truthy_detail.2.1 respDataY
    (.obj [("code", .num (-32000)), ("message", .str "x"), ("data", .str "y")])
    (.str "y") rfl rfl rfl rfl⟩

/-! ### Provider-detection priority (C5) -/

/-- A task with one agent whose `llm` is the empty string and a
crew-level `llm` of `"claude-3"`. -/
def taskEmptyAgentLlm : Json :=
  .obj [("params", .obj [("works", .obj
    [("agents", .obj [("a", .obj [("llm", .str "")])]),
     ("llm", .str "claude-3")])])]

/-- C5 counterexample: the claim says an empty-string agent `llm` is
passed over in favour of the crew-level value, but the loop in
`detectProviderFromTask` returns `detectProviderFromModel(llm)` for the
first agent `llm` of string type — including the empty string, for
which the result is `undefined` — so the crew-level `"claude-3"`
(which would classify as `anthropic`) is never consulted. -/
theorem detect_empty_agent_llm_not_passed_over :
    detectProviderFromTask taskEmptyAgentLlm = none ∧
    detectProviderFromModel "claude-3" = some "anthropic" :=
  ⟨rfl, rfl⟩

/-- A task with a single agent with llm `s` and crew-level llm
`crewLlm`. -/
def mkAgentTask (aName s : String) (crewLlm : Json) : Json :=
  .obj [("params", .obj [("works", .obj
    [("agents", .obj [(aName, .obj [("llm", .str s)])]),
     ("llm", crewLlm)])])]

/-- A task with no agents and a crew-level llm `s`. -/
def mkCrewTask (s : String) : Json :=
  .obj [("params", .obj [("works", .obj [("llm", .str s)])])]

/-- C5 amended: per-agent `llm` values are inspected before the
crew-level value, and classification uses the first agent `llm` of
string type — even the empty string, which yields `undefined` without
falling through to any later candidate; the crew-level `llm` is
consulted only when no agent `llm` is a string, and only a truthy
(non-empty) crew-level string is classified. -/
theorem detect_agent_before_crew_first_string_wins :
    (∀ (aName s : String) (crewLlm : Json),
       detectProviderFromTask (mkAgentTask aName s crewLlm) =
         detectProviderFromModel s) ∧
    (∀ s : String, s ≠ "" →
       detectProviderFromTask (mkCrewTask s) = detectProviderFromModel s) := by
  constructor
  · intro aName s crewLlm
    simp [detectProviderFromTask, mkAgentTask, jget, jgetO, jvaluesO,
          jsTruthyO, jsTruthy, firstAgentLlm]
  · intro s hs
    simp [detectProviderFromTask, mkCrewTask, jget, jgetO, jvaluesO,
          jsTruthyO, jsTruthy, crewLlmCheck, hs]

/-- Witness for C5's amended claim at the crew-level llm
`"claude-3"`. -/
theorem detect_agent_before_crew_first_string_wins_witness :
    (("claude-3" : String) ≠ "") ∧
    detectProviderFromTask (mkCrewTask "claude-3") =
      detectProviderFromModel "claude-3" :=
  ⟨by decide, detect_agent_before_crew_first_string_wins.2 "claude-3" (by decide)⟩

/-! ### Credential headers (C7) -/

/-- A credential store holding bearer token `"T"` and the
provider-specific key `llm_api_key_openai = "K"`. -/
def storeTK : String → Option String := fun k =>
  if k = "auth_token" then some "T"
  else if k = "llm_api_key_openai" then some "K"
  else none

/-- C7: with token `"T"`, detected provider `"openai"` and stored key
`llm_api_key_openai = "K"`, the streaming `executeTask` request carries
`Authorization: Bearer T` and `X-LLM-API-KEY: openai:K`; in general the
LLM key resolves provider-specific entry first, then the generic
`llm_api_key`, else the header is omitted, and the value is
`<provider>:<key>` when a provider is known and bare `<key>`
otherwise. -/
theorem executeTask_credential_headers :
    (hget (executeTaskHeaders storeTK (some "openai")) "Authorization" =
       some "Bearer T" ∧
     hget (executeTaskHeaders storeTK (some "openai")) "X-LLM-API-KEY" =
       some "openai:K") ∧
    (∀ (store : String → Option String) (p k : String), p ≠ "" →
       store ("llm_api_key_" ++ p) = some k → k ≠ "" →
       llmHeaderValue store (some p) = some (p ++ ":" ++ k)) ∧
    (∀ (store : String → Option String) (p k : String), p ≠ "" →
       strTruthy (store ("llm_api_key_" ++ p)) = false →
       store "llm_api_key" = some k → k ≠ "" →
       llmHeaderValue store (some p) = some (p ++ ":" ++ k)) ∧
    (∀ (store : String → Option String) (k : String),
       store "llm_api_key" = some k → k ≠ "" →
       llmHeaderValue store none = some k) ∧
    (∀ (store : String → Option String) (p : String),
       strTruthy (store ("llm_api_key_" ++ p)) = false →
       strTruthy (store "llm_api_key") = false →
       llmHeaderValue store (some p) = none ∧
       hget (executeTaskHeaders store (some p)) "X-LLM-API-KEY" = none) := by
  refine ⟨⟨rfl, rfl⟩, ?_, ?_, ?_, ?_⟩
  · intro store p k hp hk hk2
    simp [llmHeaderValue, strTruthy, hp, hk, hk2]
  · intro store p k hp h1 hk hk2
    cases hx : store ("llm_api_key_" ++ p) with
    | none => simp [llmHeaderValue, strTruthy, hp, hx, hk, hk2]
    | some v =>
      rw [hx] at h1
      have hv : v = "" := by simpa [strTruthy] using h1
      simp [llmHeaderValue, strTruthy, hp, hx, hv, hk, hk2]
  · intro store k hk hk2
    simp [llmHeaderValue, strTruthy, hk, hk2]
  · intro store p h1 h2
    have hval : llmHeaderValue store (some p) = none := by
      by_cases hp : p = ""
      · simp [llmHeaderValue, strTruthy, hp]
        cases hx : store "llm_api_key" with
        | none => simp
        | some v =>
          rw [hx] at h2; simp [strTruthy] at h2; simp [h2]
      · simp [llmHeaderValue, strTruthy, hp]
        cases hx : store ("llm_api_key_" ++ p) with
        | none =>
          simp [hx]
          cases hy : store "llm_api_key" with
          | none => simp
          | some v => rw [hy] at h2; simp [strTruthy] at h2; simp [h2]
        | some v =>
          rw [hx] at h1; simp [strTruthy] at h1
          simp [hx, h1]
          cases hy : store "llm_api_key" with
          | none => simp
          | some w => rw [hy] at h2; simp [strTruthy] at h2; simp [h2]
    refine ⟨hval, ?_⟩
    simp [executeTaskHeaders, hval]
    cases hz : store "auth_token" with
    | none => simp [hget]
    | some t =>
      by_cases ht : t = "" <;> simp [ht, hget]

/-- Witness for C7's resolution-order part at the concrete store
holding `llm_api_key_openai = "K"`. -/
theorem executeTask_credential_headers_witness :
    (("openai" : String) ≠ "" ∧ storeTK ("llm_api_key_" ++ "openai") = some "K" ∧
     ("K" : String) ≠ "") ∧
    llmHeaderValue storeTK (some "openai") = some ("openai" ++ ":" ++ "K") :=
  ⟨⟨by decide, rfl, by decide⟩,
   executeTask_credential_headers.2.1 storeTK "openai" "K" (by decide) rfl (by decide)⟩

/-! ### Stream-decoder lemmas

Facts about `splitLines`, `runLines` and `processChunk` shared by the
streaming claims: line splitting is compatible with concatenation, the
line loop is compatible with list append and is inert after an early
`return`, and the loop state is independent of the buffer field. -/

/-- `splitLines` on a concatenation: the complete lines of the first
part, then those of its remainder glued to the second part. -/
theorem splitLines_append (a b : List Char) :
    splitLines (a ++ b) =
      ((splitLines a).1 ++ (splitLines ((splitLines a).2 ++ b)).1,
       (splitLines ((splitLines a).2 ++ b)).2) := by
  induction a with
  | nil => simp [splitLines]
  | cons c a ih =>
    by_cases hc : c = '\n'
    · simp [splitLines, hc, ih]
    · rcases ha : splitLines a with ⟨ls1, r1⟩
      have hab := ih
      rw [ha] at hab
      rcases hr : splitLines (r1 ++ b) with ⟨ls2, r2⟩
      rw [hr] at hab
      cases ls1 with
      | nil =>
        cases ls2 with
        | nil => simp [splitLines, hc, ha, hr, hab]
        | cons l t => simp [splitLines, hc, ha, hr, hab]
      | cons l t => simp [splitLines, hc, ha, hr, hab]

/-- The remainder of `splitLines` never contains a newline. -/
theorem splitLines_snd_no_newline (x : List Char) : '\n' ∉ (splitLines x).2 := by
  induction x with
  | nil => simp [splitLines]
  | cons c cs ih =>
    by_cases hc : c = '\n'
    · simpa [splitLines, hc] using ih
    · rcases h : splitLines cs with ⟨ls, r⟩
      rw [h] at ih
      cases ls with
      | nil =>
        simp only [splitLines, hc, if_false, h]
        simp only [List.mem_cons, not_or]
        exact ⟨fun he => hc he.symm, by simpa using ih⟩
      | cons l t => simpa [splitLines, hc, h] using ih

/-- A newline-free string splits into no complete line and itself as
remainder. -/
theorem splitLines_no_newline (b : List Char) (h : '\n' ∉ b) :
    splitLines b = ([], b) := by
  induction b with
  | nil => rfl
  | cons c cs ih =>
    have hc : c ≠ '\n' := fun he => h (he ▸ List.mem_cons_self c cs)
    have ih' := ih (fun hm => h (List.mem_cons_of_mem c hm))
    simp [splitLines, hc, ih']

/-- After an early `return` the line loop is inert. -/
theorem runLines_stuck (tid : String) (s : SseState) (ls : List (List Char))
    (h : s.retVal.isSome = true) : runLines tid s ls = s := by
  cases ls with
  | nil => rfl
  | cons l ls => simp [runLines, h]

/-- The line loop over an appended list runs the two parts in
sequence. -/
theorem runLines_append (tid : String) (s : SseState) (xs ys : List (List Char)) :
    runLines tid s (xs ++ ys) = runLines tid (runLines tid s xs) ys := by
  induction xs generalizing s with
  | nil => rfl
  | cons x xs ih =>
    by_cases h : s.retVal.isSome
    · simp [runLines, h, runLines_stuck tid s ys h]
    · simp only [Bool.not_eq_true] at h
      simp [runLines, h, ih]

/-- After an early `return` the reader loop is gone. -/
theorem processChunk_stuck (tid : String) (s : StreamState) (c : List Char)
    (h : s.st.retVal.isSome = true) : processChunk tid s c = s := by
  simp [processChunk, h]

/-- Feeding two chunks in sequence produces the same loop state as
feeding their concatenation at once (the buffers may differ after an
early `return`, when they are dead state). -/
theorem processChunk_fusion_st (tid : String) (s : StreamState) (a b : List Char) :
    (processChunk tid (processChunk tid s a) b).st =
      (processChunk tid s (a ++ b)).st := by
  by_cases h : s.st.retVal.isSome
  · rw [processChunk_stuck tid s a h, processChunk_stuck tid s b h,
        processChunk_stuck tid s (a ++ b) h]
  · rcases hp : splitLines (s.buffer ++ a) with ⟨ls1, r1⟩
    rcases hq : splitLines (r1 ++ b) with ⟨ls2, r2⟩
    have hsplit : splitLines (s.buffer ++ (a ++ b)) = (ls1 ++ ls2, r2) := by
      have hx := splitLines_append (s.buffer ++ a) b
      rw [hp] at hx
      simpa [hq, List.append_assoc] using hx
    have hA : processChunk tid s a =
        { buffer := r1, st := runLines tid s.st ls1 } := by
      simp [processChunk, h, hp]
    have hAB : processChunk tid s (a ++ b) =
        { buffer := r2, st := runLines tid s.st (ls1 ++ ls2) } := by
      simp [processChunk, h, hsplit]
    rw [hA, hAB, runLines_append]
    by_cases h2 : (runLines tid s.st ls1).retVal.isSome
    · rw [processChunk_stuck tid _ b h2, runLines_stuck tid _ ls2 h2]
    · simp [processChunk, h2, hq]

/-- Folding the chunk list equals processing the joined stream in one
chunk, as far as the loop state (events, captured ack, return value)
is concerned. -/
theorem foldl_processChunk_join (tid : String) (cs : List (List Char))
    (s : StreamState) (hb : '\n' ∉ s.buffer) :
    (List.foldl (processChunk tid) s cs).st = (processChunk tid s cs.flatten).st := by
  induction cs generalizing s with
  | nil =>
    by_cases h : s.st.retVal.isSome
    · simp [processChunk, h]
    · simp [processChunk, h, splitLines_no_newline s.buffer hb, runLines]
  | cons c cs ih =>
    have hb' : '\n' ∉ (processChunk tid s c).buffer := by
      by_cases h : s.st.retVal.isSome
      · simpa [processChunk_stuck tid s c h] using hb
      · rcases hp : splitLines (s.buffer ++ c) with ⟨ls1, r1⟩
        have : processChunk tid s c = { buffer := r1, st := runLines tid s.st ls1 } := by
          simp [processChunk, h, hp]
        rw [this]
        have := splitLines_snd_no_newline (s.buffer ++ c)
        rw [hp] at this
        exact this
    calc (List.foldl (processChunk tid) s (c :: cs)).st
        = (List.foldl (processChunk tid) (processChunk tid s c) cs).st := by
          rw [List.foldl_cons]
      _ = (processChunk tid (processChunk tid s c) cs.flatten).st := ih _ hb'
      _ = (processChunk tid s (c ++ cs.flatten)).st := processChunk_fusion_st tid s c cs.flatten
      _ = (processChunk tid s (c :: cs).flatten).st := by rw [List.flatten_cons]

/-- C2: the streaming decoder is chunking-invariant — any partition of
the byte stream yields the same `onEvent` sequence (and the same
resolution value) as the whole stream fed as one chunk; in particular
the spec's split of a single `data: ` line across two chunks decodes to
exactly one event, of type `"p"`, because the partial first half is
buffered and re-assembled. -/
theorem sse_decoder_chunking_invariant :
    (∀ (tid : String) (chunks : List (List Char)),
       streamEvents tid chunks = streamEvents tid [chunks.flatten] ∧
       streamResolution tid chunks = streamResolution tid [chunks.flatten]) ∧
    (streamEvents "t" [String.data "data: \x7b\"pro",
        String.data "gress\":0.5,\"type\":\"p\"\x7d\n\n"]).length = 1 ∧
    jget ((streamEvents "t" [String.data "data: \x7b\"pro",
        String.data "gress\":0.5,\"type\":\"p\"\x7d\n\n"]).headD .null) "type" =
      some (.str "p") := by
  refine ⟨?_, rfl, rfl⟩
  intro tid chunks
  have h := foldl_processChunk_join tid chunks initStream (by simp [initStream])
  have h1 : processStream tid [chunks.flatten] = processChunk tid initStream chunks.flatten := by
    simp [processStream]
  constructor
  · show (processStream tid chunks).st.events = _
    rw [processStream, h, streamEvents, h1]
  · show (processStream tid chunks).st.retVal.getD _ = _
    rw [streamResolution, processStream, h, h1]

/-! ### Malformed frames are skipped (C8) -/

/-- C8: a `data: `-prefixed line whose payload fails JSON parsing is
logged and skipped: the line loop over the stream with the malformed
line inserted has exactly the same outcome — the same `onEvent` calls
in the same order, the same captured ack, the same return value, and
no error — as over the stream without it. -/
theorem malformed_line_skipped (tid : String) (s : SseState)
    (pre post : List (List Char)) (bad : List Char)
    (hpre : (String.data "data: ").isPrefixOf bad = true)
    (hparse : parseJson (bad.drop 6) = none) :
    runLines tid s (pre ++ bad :: post) = runLines tid s (pre ++ post) := by
  have hskip : ∀ u : SseState, processLine tid u bad = u := by
    intro u
    simp [processLine, hpre, hparse]
  rw [runLines_append, runLines_append]
  by_cases h : (runLines tid s pre).retVal.isSome
  · rw [runLines_stuck tid _ _ h, runLines_stuck tid _ _ h]
  · simp only [Bool.not_eq_true] at h
    cases post with
    | nil => simp [runLines, h, hskip]
    | cons q qs => simp [runLines, h, hskip]

/-- Witness for C8: the malformed line `data: {notjson` between two
well-formed event lines changes nothing. -/
theorem malformed_line_skipped_witness :
    ((String.data "data: ").isPrefixOf (String.data "data: \x7bnotjson") = true ∧
     parseJson ((String.data "data: \x7bnotjson").drop 6) = none) ∧
    runLines "t" { initial := none, events := [], retVal := none }
        ([String.data "data: \x7b\"type\":\"a\"\x7d"] ++
          String.data "data: \x7bnotjson" :: [String.data "data: \x7b\"type\":\"b\"\x7d"]) =
      runLines "t" { initial := none, events := [], retVal := none }
        ([String.data "data: \x7b\"type\":\"a\"\x7d"] ++
          [String.data "data: \x7b\"type\":\"b\"\x7d"]) :=
  ⟨⟨by decide, rfl⟩,
   malformed_line_skipped "t" { initial := none, events := [], retVal := none }
     [String.data "data: \x7b\"type\":\"a\"\x7d"]
     [String.data "data: \x7b\"type\":\"b\"\x7d"]
     (String.data "data: \x7bnotjson") (by decide) rfl⟩

/-! ### The streaming acknowledgement (C1) -/

/-- The early-`return` value is always consistent with the captured
`initialResponse`: it was computed as `initialResponse || synthesized`
at return time, and the captured value cannot change afterwards. -/
def retConsistent (tid : String) (s : SseState) : Prop :=
  ∀ v, s.retVal = some v → v = jsOrO s.initial (synthResponse tid)

/-- One loop iteration either leaves the `return` slot unchanged, or
fills it with `initialResponse || synthesized` for the current
`initialResponse`, leaving the latter unchanged. -/
theorem processLine_cases (tid : String) (s : SseState) (l : List Char) :
    (processLine tid s l).retVal = s.retVal ∨
    ((processLine tid s l).retVal = some (jsOrO s.initial (synthResponse tid)) ∧
     (processLine tid s l).initial = s.initial) := by
  simp only [processLine]
  split
  · split
    · exact Or.inl rfl
    · split
      · exact Or.inl rfl
      · split
        · split
          · exact Or.inr ⟨rfl, rfl⟩
          · exact Or.inl rfl
        · exact Or.inl rfl
  · exact Or.inl rfl

/-- One loop iteration on a not-yet-returned state preserves the
consistency of the return value. -/
theorem processLine_retConsistent (tid : String) (s : SseState) (l : List Char)
    (h : s.retVal = none) : retConsistent tid (processLine tid s l) := by
  intro v hv
  rcases processLine_cases tid s l with h1 | ⟨h1, h2⟩
  · rw [h1, h] at hv; cases hv
  · rw [h1] at hv
    injection hv with hv'
    rw [h2, hv']

/-- The line loop preserves the consistency of the return value. -/
theorem runLines_retConsistent (tid : String) (s : SseState)
    (ls : List (List Char)) (h : retConsistent tid s) :
    retConsistent tid (runLines tid s ls) := by
  induction ls generalizing s with
  | nil => exact h
  | cons l ls ih =>
    by_cases h1 : s.retVal.isSome
    · rw [runLines, if_pos h1]
      exact h
    · rw [runLines, if_neg h1]
      have h1' : s.retVal = none := by
        cases hx : s.retVal with
        | none => rfl
        | some w => rw [hx] at h1; simp at h1
      exact ih _ (processLine_retConsistent tid s l h1')

/-- Every reachable `processStream` state has a consistent return
value. -/
theorem processStream_retConsistent (tid : String) (chunks : List (List Char)) :
    retConsistent tid (processStream tid chunks).st := by
  suffices hgen : ∀ (s : StreamState), retConsistent tid s.st →
      retConsistent tid (List.foldl (processChunk tid) s chunks).st by
    apply hgen
    intro v hv
    cases hv
  induction chunks with
  | nil => intro s hs; exact hs
  | cons c cs ih =>
    intro s hs
    rw [List.foldl_cons]
    apply ih
    by_cases h1 : s.st.retVal.isSome
    · rw [processChunk_stuck tid s c h1]; exact hs
    · rcases hp : splitLines (s.buffer ++ c) with ⟨ls1, r1⟩
      have hstep : processChunk tid s c = { buffer := r1, st := runLines tid s.st ls1 } := by
        simp [processChunk, h1, hp]
      rw [hstep]
      exact runLines_retConsistent tid s.st ls1 hs

/-- The example stream of the claim: the server acks with a
JSON-RPC-shaped frame whose result has status `"running"`, then emits
a final event. -/
def ackThenFinalChunk : List Char :=
  String.data ("data: \x7b\"jsonrpc\":\"2.0\",\"result\":\x7b\"success\":true," ++
    "\"root_task_id\":\"t\",\"task_id\":\"t\",\"status\":\"running\"," ++
    "\"message\":\"ok\"\x7d\x7d\n\ndata: \x7b\"type\":\"done\",\"final\":true\x7d\n\n")

/-- C1 counterexample: on a stream that carries a JSON-RPC-shaped
acknowledgement (captured: `initial.isSome`) followed by a
`final: true` event (delivered: one `onEvent` call), the background
`processStream` promise resolves with the captured `"running"` ack —
but the promise `executeTask` actually returns resolved before any
chunk was processed, with the synthesized `"started"` placeholder, a
different value.  The placeholder is thus returned even though an
initial acknowledgement was captured on the stream, contradicting the
claim. -/
theorem executeTask_ack_placeholder_despite_captured_ack :
    (processStream "t" [ackThenFinalChunk]).st.initial.isSome = true ∧
    (streamEvents "t" [ackThenFinalChunk]).length = 1 ∧
    jget (streamResolution "t" [ackThenFinalChunk]) "status" = some (.str "running") ∧
    jget (executeTaskStreamingAck "t" [ackThenFinalChunk]) "status" = some (.str "started") ∧
    executeTaskStreamingAck "t" [ackThenFinalChunk] ≠
      streamResolution "t" [ackThenFinalChunk] := by
  refine ⟨rfl, rfl, rfl, rfl, fun h => ?_⟩
  have h2 : (some (Json.str "started") : Option Json) = some (Json.str "running") := by
    calc (some (Json.str "started") : Option Json)
        = jget (executeTaskStreamingAck "t" [ackThenFinalChunk]) "status" := by rfl
      _ = jget (streamResolution "t" [ackThenFinalChunk]) "status" := by rw [h]
      _ = some (Json.str "running") := by rfl
  injection h2 with h3
  injection h3 with h4
  exact absurd h4 (by decide)

/-- C1 amended: in the SSE streaming branch the promise returned by
`executeTask` always resolves with the synthesized `"started"`
placeholder (the `return initialResponse || {...}` on line 720 runs
before the background loop has processed anything), whatever the
stream carries; the captured initial acknowledgement only determines
the value of the background `processStream` promise — which resolves
with `initialResponse || synthesized` as of stream end or final
marker — and that promise's value is discarded. -/
theorem executeTask_streaming_ack_amended :
    (∀ (tid : String) (chunks : List (List Char)),
       executeTaskStreamingAck tid chunks = synthResponse tid) ∧
    (∀ (tid : String) (chunks : List (List Char)),
       streamResolution tid chunks =
         jsOrO (processStream tid chunks).st.initial (synthResponse tid)) := by
  refine ⟨fun tid chunks => rfl, fun tid chunks => ?_⟩
  show (processStream tid chunks).st.retVal.getD
      (jsOrO (processStream tid chunks).st.initial (synthResponse tid)) =
    jsOrO (processStream tid chunks).st.initial (synthResponse tid)
  cases hr : (processStream tid chunks).st.retVal with
  | none => rfl
  | some v =>
    have hv := processStream_retConsistent tid chunks v hr
    rw [Option.getD_some, hv]
